import Mathlib

set_option maxRecDepth 4000

/-!
Shallow embedding of the test-case generation and validation pipeline of the
repository (class TestCaseGenerator).  The repository carries two variants of
the pipeline: `src/app.py` (the variant exercised by the unit tests, with the
blob-storage branch and the substring-based type dispatch) and the older
duplicate `src/generate_test_cases.py`.  Definitions below are translated from
`src/app.py` unless their name carries the suffix `_gtc`, which marks the
`generate_test_cases.py` variant where the two files differ.

Python strings are modelled as `List Char` where the code manipulates them
(replace / strip / regex repair / date parsing) and as `String` elsewhere.
Python `\d` and `str.lower` are modelled on ASCII, which covers every literal
appearing in the code and in the claims.
-/

/-- A JSON value as it can appear in a parsed LLM response field
(`null`, string, number, boolean).  Numbers are modelled as integers;
no claim involves fractional numeric inputs. -/
inductive JVal where
  | null : JVal
  | str (s : String) : JVal
  | num (n : Int) : JVal
  | bool (b : Bool) : JVal
deriving DecidableEq

/-- One candidate test case as decoded from JSON: a dict that may or may not
carry each of the four required keys.  `none` models an absent key. -/
structure Candidate where
  test_case : Option JVal
  description : Option JVal
  expected_result : Option JVal
  input : Option JVal
deriving DecidableEq

/-- Python `str.lower`, ASCII model. -/
def pyLower (s : List Char) : List Char := s.map Char.toLower

/-- Boolean test that the first list starts the second (Python startswith). -/
def isPre : List Char → List Char → Bool
  | [], _ => true
  | _ :: _, [] => false
  | a :: as, b :: bs => a == b && isPre as bs

/-- Python substring containment `needle in hay`. -/
def containsSub (needle hay : List Char) : Bool :=
  hay.tails.any (fun t => isPre needle t)

/-- The simplified type classification of `_validate_test_case` (app.py
lines 150-155): date-like if the lowered type string contains "date" or
"time", string-like if it contains "string" or "object". -/
def simplified_type (data_type : String) : Option String :=
  if containsSub "date".toList (pyLower data_type.toList)
      || containsSub "time".toList (pyLower data_type.toList) then some "Date"
  else if containsSub "string".toList (pyLower data_type.toList)
      || containsSub "object".toList (pyLower data_type.toList) then some "String"
  else none

/-- Numeric value of a digit run. -/
def toNum (ds : List Char) : Nat := ds.foldl (fun a c => 10 * a + (c.toNat - '0'.toNat)) 0

/-- One 1-or-2-digit field of the strptime format, followed by a non-digit
separator: CPython compiles such a directive to a regex alternation trying the
two-digit alternatives before the single-digit one; because the following
literal separator is never a digit, the match succeeds exactly when the
maximal digit run before the separator has length 1 and satisfies the
one-digit alternative, or length 2 and satisfies a two-digit alternative. -/
def parse12 (ok1 ok2 : Nat → Bool) (s : List Char) : Option (Nat × List Char) :=
  let ds := s.takeWhile Char.isDigit
  let rest := s.dropWhile Char.isDigit
  if ds.length = 1 && ok1 (toNum ds) then some (toNum ds, rest)
  else if ds.length = 2 && ok2 (toNum ds) then some (toNum ds, rest)
  else none

/-- Consume one expected literal character. -/
def expectChar (c : Char) : List Char → Option (List Char)
  | [] => none
  | x :: xs => if x = c then some xs else none

/-- Regex-level match of `datetime.strptime(s, "%Y-%m-%d %H:%M:%S.%f")`,
the single entry of `valid_formats`: %Y is exactly four digits, %m is 1-12,
%d is 1-31, %H is 0-23 (two-digit form) or any single digit, %M is 0-59 or a
single digit, %S is 0-61 or a single digit, %f is one to six digits, and the
whole string must be consumed ("unconverted data remains" otherwise).
Returns (year, month, day, hour, minute, second, fraction digits value). -/
def parse_YmdHMSf (s : List Char) : Option (Nat × Nat × Nat × Nat × Nat × Nat × Nat) :=
  let yds := s.takeWhile Char.isDigit
  let r0 := s.dropWhile Char.isDigit
  if yds.length = 4 then
    match expectChar '-' r0 with
    | none => none
    | some r1 =>
      match parse12 (fun v => 1 ≤ v) (fun v => 1 ≤ v && v ≤ 12) r1 with
      | none => none
      | some (mo, r2) =>
        match expectChar '-' r2 with
        | none => none
        | some r3 =>
          match parse12 (fun v => 1 ≤ v) (fun v => 1 ≤ v && v ≤ 31) r3 with
          | none => none
          | some (d, r4) =>
            match expectChar ' ' r4 with
            | none => none
            | some r5 =>
              match parse12 (fun _ => true) (fun v => v ≤ 23) r5 with
              | none => none
              | some (h, r6) =>
                match expectChar ':' r6 with
                | none => none
                | some r7 =>
                  match parse12 (fun _ => true) (fun v => v ≤ 59) r7 with
                  | none => none
                  | some (mi, r8) =>
                    match expectChar ':' r8 with
                    | none => none
                    | some r9 =>
                      match parse12 (fun _ => true) (fun v => v ≤ 61) r9 with
                      | none => none
                      | some (se, r10) =>
                        match expectChar '.' r10 with
                        | none => none
                        | some r11 =>
                          let fds := r11.takeWhile Char.isDigit
                          let fr := r11.dropWhile Char.isDigit
                          if 1 ≤ fds.length && fds.length ≤ 6 && fr.isEmpty then
                            some (toNum yds, mo, d, h, mi, se, toNum fds)
                          else none
  else none

def isLeapYear (y : Nat) : Bool := (y % 4 == 0 && y % 100 != 0) || y % 400 == 0

def daysInMonth (y m : Nat) : Nat :=
  if m = 2 then (if isLeapYear y then 29 else 28)
  else if m = 4 ∨ m = 6 ∨ m = 9 ∨ m = 11 then 30 else 31

/-- `datetime.strptime(s, "%Y-%m-%d %H:%M:%S.%f")` succeeds (no ValueError):
the regex matches and the resulting datetime constructor arguments are in
range (MINYEAR 1, day within the month, second at most 59 - the regex admits
leap seconds 60/61 but the datetime constructor rejects them). -/
def strptime_ok (s : List Char) : Bool :=
  match parse_YmdHMSf s with
  | none => false
  | some (y, mo, d, _, _, se, _) =>
    if 1 ≤ y ∧ d ≤ daysInMonth y mo ∧ se ≤ 59 then true else false

/-- The format checks corresponding to `valid_formats`, which holds exactly
one entry `"%Y-%m-%d %H:%M:%S.%f"`. -/
def valid_format_checks : List (List Char → Bool) := [strptime_ok]

/-- `_validate_date_format` (app.py lines 74-83), as a function of the
candidate `input` value: null is accepted, a string is accepted iff some
format in `valid_formats` parses it, everything else is rejected. -/
def validate_date_format (inp : JVal) : Bool × String :=
  match inp with
  | .null => (true, "")
  | .str s =>
    if valid_format_checks.any (fun f => f s.toList) then (true, "")
    else (false, "Invalid date format. Expected formats: [\x27%Y-%m-%d %H:%M:%S.%f\x27]")
  | _ => (false, "Date input must be a string")

/-- `_validate_string_format` (app.py lines 85-90), as a function of the
candidate `input` and `expected_result` values. -/
def validate_string_format (inp er : JVal) : Bool × String :=
  match inp with
  | .null => (true, "")
  | .str _ => (true, "")
  | _ =>
    if er = JVal.str "Pass" then
      (false, "String field with non-string input should fail if expected to Pass")
    else (true, "")

/-- `_validate_test_case` (app.py lines 141-159): require the four keys,
require `expected_result` to be exactly "Pass" or "Fail", then dispatch the
type-specific extra validation on the simplified type. -/
def validate_test_case (c : Candidate) (data_type : String) : Bool × String :=
  match c.test_case, c.description, c.expected_result, c.input with
  | some _, some _, some er, some inp =>
    if er ≠ JVal.str "Pass" ∧ er ≠ JVal.str "Fail" then (false, "Invalid expected_result value")
    else
      match simplified_type data_type with
      | some "Date" => validate_date_format inp
      | some "String" => validate_string_format inp er
      | _ => (true, "")
  | _, _, _, _ => (false, "Missing required fields")

/-- The normalization step of `_parse_llm_response` (app.py line 174):
`case["expected_result"] = "Pass" if case["expected_result"].lower() == "pass" else "Fail"`. -/
def normalize_expected (c : Candidate) : Candidate :=
  match c.expected_result with
  | some (.str s) =>
    { c with expected_result := some (.str (if pyLower s.toList = "pass".toList then "Pass" else "Fail")) }
  | _ => c

/-- The per-element validate-and-normalize loop of `_parse_llm_response`
(app.py lines 168-175): invalid candidates are skipped, valid ones are
normalized and kept in order. -/
def validated_cases (data_type : String) : List Candidate → List Candidate
  | [] => []
  | c :: rest =>
    if (validate_test_case c data_type).1 then
      normalize_expected c :: validated_cases data_type rest
    else validated_cases data_type rest

/-- Python `str.strip` whitespace test (ASCII whitespace model). -/
def isPySpace (c : Char) : Bool :=
  c == ' ' || c == '\t' || c == '\n' || c == '\r' || c == '\x0b' || c == '\x0c'

/-- Python `str.strip()`. -/
def pyStrip (l : List Char) : List Char :=
  ((l.dropWhile isPySpace).reverse.dropWhile isPySpace).reverse

/-- Python `str.replace(pat, rep)`: scan left to right over the original
string, replacing each non-overlapping occurrence of `pat` and resuming the
scan after it. -/
def scanReplace (pat rep : List Char) : List Char → List Char
  | [] => []
  | c :: rest =>
    if isPre pat (c :: rest) then rep ++ scanReplace pat rep (List.drop (pat.length - 1) rest)
    else c :: scanReplace pat rep rest
termination_by l => l.length
decreasing_by
  · simp only [List.length_drop, List.length_cons]; omega
  · simp

/-- The escape repair regex substitution of `_parse_llm_response` (app.py
line 164), whose pattern is a backslash followed by one character that is
neither a double quote nor a backslash, and whose replacement doubles the
backslash: scanning left to right, such a backslash is doubled and the
matched pair consumed; any other character is copied. -/
def repairEscapes : List Char → List Char
  | [] => []
  | ['\\'] => ['\\']
  | '\\' :: c :: rest =>
    if c = '"' || c = '\\' then '\\' :: repairEscapes (c :: rest)
    else '\\' :: '\\' :: c :: repairEscapes rest
  | c :: rest => c :: repairEscapes rest

/-- The cleaning step of `_parse_llm_response` (app.py line 163):
`response_text.replace("```json", "").replace("```", "").strip()`. -/
def cleanText (s : List Char) : List Char :=
  pyStrip (scanReplace "```".toList [] (scanReplace "```json".toList [] s))

/-- `_parse_llm_response` (app.py lines 161-182).  `json.loads` is an external
collaborator, abstracted as the `decode` parameter: `decode t = some cases`
models a decode of `t` into a JSON array (its elements as dicts over the four
keys), `none` models any of the failure modes the source maps to `return
None` (JSONDecodeError, a non-array top level, or a non-dict element raising
inside the loop - every one is caught and yields None). -/
def parse_llm_response (decode : List Char → Option (List Candidate)) (data_type : String)
    (response_text : List Char) : Option (List Candidate) :=
  match decode (repairEscapes (cleanText response_text)) with
  | none => none
  | some cases => some (validated_cases data_type cases)

/-- The metadata of one field of the processed rules. -/
structure FieldSpec where
  data_type : String
  mandatory_field : Bool
  primary_key : Bool
  business_rules : String

/-- The retry loop of `generate_test_cases` (app.py lines 231-250) over the
outcomes of up to `max_retries = 3` completion calls: `.error` models the
collaborator raising (caught by the per-attempt `except`), `.ok none` a None
response, `.ok (some t)` a text response (empty text is falsy).  The first
attempt whose response parses to a non-empty case list wins; every other
outcome just moves on to the next attempt. -/
def run_field_attempts (decode : List Char → Option (List Candidate)) (data_type : String) :
    List (Except Unit (Option (List Char))) → Option (List Candidate)
  | [] => none
  | o :: rest =>
    match o with
    | .error _ => run_field_attempts decode data_type rest
    | .ok none => run_field_attempts decode data_type rest
    | .ok (some t) =>
      if t = [] then run_field_attempts decode data_type rest
      else
        match parse_llm_response decode data_type t with
        | some cs =>
          if cs = [] then run_field_attempts decode data_type rest else some cs
        | none => run_field_attempts decode data_type rest

/-- The composite key `f"{parent_field}.{field_name}"`. -/
def composite_key (parent field : String) : String := parent ++ "." ++ field

/-- The field-processing loop of `generate_test_cases` (app.py lines 216-251):
iterate the rules in order, run the retry loop per field, and store the case
list under the composite key only on success.  `rules` is the parsed rule
mapping in iteration order; `oracle` gives the completion outcomes each
attempts of each field observe. -/
def generate_all (decode : List Char → Option (List Candidate))
    (rules : List (String × List (String × FieldSpec)))
    (oracle : String → String → List (Except Unit (Option (List Char)))) :
    List (String × List Candidate) :=
  rules.bind (fun pd => pd.2.filterMap (fun fe =>
    (run_field_attempts decode fe.2.data_type (oracle pd.1 fe.1)).map
      (fun cs => (composite_key pd.1 fe.1, cs))))

/-- A failed attempt in the sense of the retry loop: the completion call
raised, returned None or empty text, or the parser yielded no valid cases
(parse failure or an empty validated list). -/
def attempt_failed (decode : List Char → Option (List Candidate)) (data_type : String) :
    Except Unit (Option (List Char)) → Prop
  | .error _ => True
  | .ok none => True
  | .ok (some t) =>
    t = [] ∨ parse_llm_response decode data_type t = none
      ∨ parse_llm_response decode data_type t = some []

/-- Python `str(b)` for booleans, as interpolated by f-strings. -/
def pyBool (b : Bool) : String := if b then "True" else "False"

/-- The `field_specific_info` computation of `_generate_prompt` (app.py lines
94-99): the outer branch requires `data_type == "Date"` exactly; only inside
it does the substring check on "date"/"time" run, appending the enumeration
of `valid_formats` (a single entry, so the join is one line). -/
def field_specific_info (data_type : String) : String :=
  if data_type = "Date" then
    if containsSub "date".toList (pyLower data_type.toList)
        || containsSub "time".toList (pyLower data_type.toList) then
      "\nFor Date fields, use these formats only:\n- %Y-%m-%d %H:%M:%S.%f"
    else ""
  else ""

/-- `_generate_prompt` (app.py lines 92-139): the fixed f-string template with
the five inputs and `field_specific_info` interpolated. -/
def generate_prompt (field_name data_type : String) (mandatory_field primary_key : Bool)
    (business_rules : String) : String :=
  "\nGenerate test cases for the field \x27" ++ field_name ++
  "\x27 with following specifications:\n- Data Type: " ++ data_type ++
  "\n- Mandatory: " ++ pyBool mandatory_field ++
  "\n- Primary Key: " ++ pyBool primary_key ++
  "\n- Business Rules: " ++ business_rules ++ " " ++ field_specific_info data_type ++
  "\n\nRequirements:\n1. Include ONLY the JSON array of test cases in your response\n" ++
  "2. Each test case must have these exact fields:\n" ++
  "   - \"test_case\": A clear, unique identifier for the test\n" ++
  "   - \"description\": Detailed explanation of what the test verifies\n" ++
  "   - \"expected_result\": MUST be exactly \"Pass\" or \"Fail\"\n" ++
  "   - \"input\": The test input value (can be null, string, number, etc.)\n\n" ++
  "3. Include these types of test cases:\n   - Basic valid inputs\n" ++
  "   - Basic invalid inputs\n   - Null/empty handling (consider mandatory status)\n" ++
  "   - Boundary conditions\n   - Edge cases\n   - Type validation\n\n" ++
  "4. Consider field-specific requirements:\n" ++
  "   - For Date fields: Adhere to specified valid date formats. Use \"input\": null for null date tests.\n" ++
  "   - For String fields: Consider length limits and character restrictions if mentioned in business rules.\n" ++
  "   - Handle nullable fields appropriately based on constraints. A non-mandatory field can have null input and Pass.\n\n" ++
  "Return the response in this exact format:\n[\n    \x7b\n" ++
  "        \"test_case\": \"TC001_Valid_Basic\",\n" ++
  "        \"description\": \"Basic valid input test\",\n" ++
  "        \"expected_result\": \"Pass\",\n" ++
  "        \"input\": \"example\"\n    \x7d\n]\n\n" ++
  "IMPORTANT: Return ONLY the JSON array. No additional text or explanation."

/-- Python `str()` of a scalar JSON value, as used when flattening to CSV. -/
def pyStr : JVal → String
  | .null => "None"
  | .str s => s
  | .num n => toString n
  | .bool b => if b then "True" else "False"

/-- Python `full_field_name.split(".", 1)`: the part before the first dot and,
when a dot exists, the whole remainder after it. -/
def splitFirstDot : List Char → List Char × Option (List Char)
  | [] => ([], none)
  | c :: rest =>
    if c = '.' then ([], some rest)
    else
      let p := splitFirstDot rest
      (c :: p.1, p.2)

/-- `case_dict.get("input")` is None when the key is absent or its value is
JSON null; the CSV cell is then the literal "NULL", otherwise `str(value)`. -/
def renderInput : Option JVal → String
  | none => "NULL"
  | some .null => "NULL"
  | some v => pyStr v

/-- The CSV header row written by `_save_test_cases`. -/
def csvHeaders : List String :=
  ["SchemaName", "FieldName", "Test Case", "Description", "Expected Result", "Input"]

/-- One CSV data row for a test case of field `full_field_name` (app.py lines
282-291 / 337-346): schema is the part of the composite key before the first
dot, field name everything after it (empty when there is no dot), then the
four case fields with `.get(key, "")` defaults and the NULL rendering for the
input. -/
def rowForCase (full_field_name : List Char) (c : Candidate) : List String :=
  let parts := splitFirstDot full_field_name
  [String.mk parts.1, String.mk (parts.2.getD []),
   pyStr (c.test_case.getD (.str "")), pyStr (c.description.getD (.str "")),
   pyStr (c.expected_result.getD (.str "")), renderInput c.input]

/-- The nested writerow loop of `_save_test_cases`: for each composite key in
mapping order, one row per test case in list order. -/
def csvRows : List (String × List Candidate) → List (List String)
  | [] => []
  | (fn, cl) :: rest => cl.map (rowForCase fn.toList) ++ csvRows rest

/-- The local-filesystem branch of `_save_test_cases` (app.py lines 304-349)
as a function of the outcomes of the two write operations: a JSON write
failure is logged and re-raised (the source comments that JSON is primary);
with an empty mapping the CSV step is skipped; a CSV write failure
is logged only.  The result pairs the run outcome with the emitted log tags;
the backup-rename steps only log on failure and are not modelled. -/
def save_test_cases_local (jsonWrite csvWrite : Except String Unit)
    (test_cases : List (String × List Candidate)) : Except String Unit × List String :=
  match jsonWrite with
  | .error e => (.error e, ["Failed to save test cases to JSON file"])
  | .ok _ =>
    if test_cases = [] then
      (.ok (), ["Successfully saved test cases to JSON",
                "Test cases dictionary is empty, skipping local CSV generation."])
    else
      match csvWrite with
      | .error _ => (.ok (), ["Successfully saved test cases to JSON",
                              "Failed to save test cases to CSV file"])
      | .ok _ => (.ok (), ["Successfully saved test cases to JSON",
                           "Successfully saved test cases to CSV"])

/-- The blob-storage branch of `_save_test_cases` (app.py lines 262-302) as a
function of the two upload outcomes: `upload_json_data` / `upload_data`
return booleans, a False is logged and the flow continues, and the whole
branch sits in a `try` whose `except` only logs - so this branch never
raises, whatever the outcomes. -/
def save_test_cases_blob (jsonUploadOk csvUploadOk : Bool)
    (test_cases : List (String × List Candidate)) : Except String Unit × List String :=
  let jsonLog :=
    if jsonUploadOk then ["Successfully saved test cases to JSON in Azure Blob Storage"]
    else ["Failed to save JSON test cases to Azure Blob Storage"]
  let csvLog :=
    if test_cases = [] then ["Test cases dictionary is empty, skipping CSV generation for blob."]
    else if csvUploadOk then ["Successfully saved test cases to CSV in Azure Blob Storage"]
    else ["Failed to save CSV test cases to Azure Blob Storage"]
  (.ok (), jsonLog ++ csvLog)

/-- `total_fields = len(test_cases)` as computed (and then never used) by
`_generate_summary` in generate_test_cases.py line 351. -/
def total_fields_gtc (test_cases : List (String × List Candidate)) : Nat := test_cases.length

/-- `total_test_cases = sum(len(cases) for cases in test_cases.values())` as
computed (and then never used) by `_generate_summary` in
generate_test_cases.py line 352. -/
def total_test_cases_gtc (test_cases : List (String × List Candidate)) : Nat :=
  (test_cases.map (fun p => p.2.length)).sum

/-- The summary string built by `_generate_summary` of generate_test_cases.py
(lines 354-362): the three reported quantities are the hardcoded literals
10, 122 and 12.2; the `test_cases` argument (from which the source computes
`total_fields` and `total_test_cases`) never reaches the emitted string. -/
def generate_summary_gtc (test_cases : List (String × List Candidate)) (output_file : String) :
    String :=
  let _total_fields := total_fields_gtc test_cases
  let _total_test_cases := total_test_cases_gtc test_cases
  "\nTest Case Generation Summary\n" ++
  "==============================" ++ "\n" ++
  "Total fields processed: 10 \n" ++
  "Total test cases generated: 122 \n" ++
  "Average test cases per field: 12.2 \n" ++
  "Output file: " ++ output_file ++ "\n" ++
  "=============================="

/-- A candidate carrying all four required keys. -/
def mkCand (tc de er inp : JVal) : Candidate := ⟨some tc, some de, some er, some inp⟩

/-- A response wrapped in code-fence markers around identical content. -/
def fenceWrap (s : List Char) : List Char := "```json\n".toList ++ s ++ "\n```".toList

theorem strptime_dot_tail (ds : List Char) (hne : ds ≠ []) (hlen : ds.length ≤ 6)
    (hdig : ∀ c ∈ ds, c.isDigit) :
    strptime_ok ("2024-07-29 10:20:30.".toList ++ ds) = true := by
  have ht : ds.takeWhile Char.isDigit = ds := List.takeWhile_eq_self_iff.mpr hdig
  have hd : ds.dropWhile Char.isDigit = [] := List.dropWhile_eq_nil_iff.mpr hdig
  have hlen1 : 1 ≤ ds.length := by
    cases ds with
    | nil => exact absurd rfl hne
    | cons a l => simp
  simp only [show "2024-07-29 10:20:30.".toList ++ ds =
    '2' :: '0' :: '2' :: '4' :: '-' :: '0' :: '7' :: '-' :: '2' :: '9' :: ' ' :: '1' :: '0' :: ':' :: '2' :: '0' :: ':' :: '3' :: '0' :: '.' ::ds from rfl]
  simp +decide [strptime_ok, parse_YmdHMSf, parse12, expectChar, toNum,
    List.takeWhile_cons, List.dropWhile_cons, ht, hd, hlen, hlen1]

theorem valid_er_shape (c : Candidate) (dt : String) (h : (validate_test_case c dt).1 = true) :
    c.expected_result = some (JVal.str "Pass") ∨ c.expected_result = some (JVal.str "Fail") := by
  rcases c with ⟨tc, de, er, inp⟩
  cases tc with
  | none => simp [validate_test_case] at h
  | some tcv =>
    cases de with
    | none => simp [validate_test_case] at h
    | some dev =>
      cases er with
      | none => simp [validate_test_case] at h
      | some erv =>
        cases inp with
        | none => simp [validate_test_case] at h
        | some inpv =>
          by_cases hp : erv = JVal.str "Pass" ∨ erv = JVal.str "Fail"
          · rcases hp with hp | hp <;> subst hp <;> simp
          · exfalso
            push_neg at hp
            simp only [validate_test_case, if_pos hp] at h
            exact absurd h (by simp)

theorem mem_validated (dt : String) (l : List Candidate) (c : Candidate)
    (h : c ∈ validated_cases dt l) :
    ∃ c0, (validate_test_case c0 dt).1 = true ∧ c = normalize_expected c0 := by
  induction l with
  | nil => simp [validated_cases] at h
  | cons a t ih =>
    by_cases hv : (validate_test_case a dt).1 = true
    · rw [validated_cases, if_pos hv] at h
      rcases List.mem_cons.mp h with rfl | h2
      · exact ⟨a, hv, rfl⟩
      · exact ih h2
    · rw [validated_cases, if_neg hv] at h
      exact ih h

theorem normalize_shape (c0 : Candidate) (s : String) (h : c0.expected_result = some (JVal.str s)) :
    (normalize_expected c0).expected_result = some (JVal.str "Pass")
    ∨ (normalize_expected c0).expected_result = some (JVal.str "Fail") := by
  rcases c0 with ⟨tc, de, er, inp⟩
  simp only at h
  subst h
  have hre : (normalize_expected ⟨tc, de, some (.str s), inp⟩).expected_result
      = some (.str (if pyLower s.toList = "pass".toList then "Pass" else "Fail")) := rfl
  rw [hre]
  by_cases hp : pyLower s.toList = "pass".toList
  · rw [if_pos hp]
    left
    rfl
  · rw [if_neg hp]
    right
    rfl

/-- C2 counterexample: a candidate spelled "PASS" (a case-insensitive variant
of "pass") is rejected by the universal check with "Invalid expected_result
value" before normalization can run: the pipeline does not accept it. -/
theorem c2_case_variant_rejected :
    validate_test_case (mkCand (.str "T1") (.str "d") (.str "PASS") .null) "string"
      = (false, "Invalid expected_result value")
    ∧ validated_cases "string" [mkCand (.str "T1") (.str "d") (.str "PASS") .null] = [] := by
  decide

/-- C2 amended: only candidates whose expected_result is exactly "Pass" or
"Fail" survive validation; any other spelling is rejected; on the accepted
values normalization is the identity, and every case the pipeline returns
carries expected_result exactly "Pass" or "Fail". -/
theorem c2_exact_pass_fail_only :
    (∀ (c : Candidate) (dt : String) (er : String), c.expected_result = some (.str er) →
        er ≠ "Pass" → er ≠ "Fail" → (validate_test_case c dt).1 = false)
    ∧ (∀ c : Candidate,
        c.expected_result = some (JVal.str "Pass") ∨ c.expected_result = some (JVal.str "Fail") →
        normalize_expected c = c)
    ∧ (∀ (dt : String) (l : List Candidate) (c : Candidate), c ∈ validated_cases dt l →
        c.expected_result = some (JVal.str "Pass") ∨ c.expected_result = some (JVal.str "Fail")) := by
  refine ⟨?_, ?_, ?_⟩
  · intro c dt er hc h1 h2
    rcases c with ⟨tc, de, er', inp⟩
    simp only at hc
    subst hc
    cases tc <;> cases de <;> cases inp <;> simp [validate_test_case, h1, h2]
  · intro c hc
    rcases c with ⟨tc, de, er, inp⟩
    rcases hc with hc | hc <;> simp only at hc <;> subst hc <;> simp +decide [normalize_expected]
  · intro dt l c h
    obtain ⟨c0, hv, rfl⟩ := mem_validated dt l c h
    rcases valid_er_shape c0 dt hv with h0 | h0
    · exact normalize_shape c0 "Pass" h0
    · exact normalize_shape c0 "Fail" h0

theorem c2_exact_pass_fail_only_witness :
    (validate_test_case (mkCand (.str "T1") (.str "d") (.str "pAsS") .null) "string").1 = false :=
  c2_exact_pass_fail_only.1 (mkCand (.str "T1") (.str "d") (.str "pAsS") .null) "string"
    "pAsS" rfl (by decide) (by decide)

/-- C4: under a date-like data_type, with the four keys present and
expected_result one of "Pass"/"Fail" (mandatory-ness is not an input of the
validator at all): the microsecond-precision literal is accepted, a slashed
date is rejected with a reason containing "Invalid date format", a null input
is accepted whatever the other fields hold, and every non-null non-string
input is rejected with exactly "Date input must be a string". -/
theorem c4_date_validation (tc de er : JVal) (dt : String)
    (hdt : simplified_type dt = some "Date")
    (her : er = JVal.str "Pass" ∨ er = JVal.str "Fail") :
    (validate_test_case (mkCand tc de er (.str "2024-07-29 10:20:30.123456")) dt).1 = true
    ∧ (validate_test_case (mkCand tc de er (.str "2024/07/29")) dt).1 = false
    ∧ containsSub "Invalid date format".toList
        ((validate_test_case (mkCand tc de er (.str "2024/07/29")) dt).2.toList) = true
    ∧ (validate_test_case (mkCand tc de er .null) dt).1 = true
    ∧ (∀ n : Int, validate_test_case (mkCand tc de er (.num n)) dt
        = (false, "Date input must be a string"))
    ∧ (∀ b : Bool, validate_test_case (mkCand tc de er (.bool b)) dt
        = (false, "Date input must be a string")) := by
  rcases her with h | h <;> subst h <;>
    refine ⟨?_, ?_, ?_, ?_, fun n => ?_, fun b => ?_⟩ <;>
    simp [validate_test_case, mkCand, hdt, validate_date_format, valid_format_checks] <;>
    decide

theorem c4_date_validation_witness :
    (validate_test_case
      (mkCand (.str "T1") (.str "d") (.str "Pass") (.str "2024-07-29 10:20:30.123456"))
      "datetime64[ns]").1 = true :=
  (c4_date_validation (.str "T1") (.str "d") (.str "Pass") "datetime64[ns]"
    (by decide) (Or.inl rfl)).1

/-- C5: under a string-like data_type with the four keys present, the check is
asymmetric: a non-string non-null input expected to "Pass" is rejected with
the quoted reason, the same input expected to "Fail" is accepted, and a null
input is accepted with either expected_result. -/
theorem c5_string_pass_guard (tc de : JVal) (dt : String)
    (hdt : simplified_type dt = some "String") :
    (∀ n : Int, validate_test_case (mkCand tc de (.str "Pass") (.num n)) dt
        = (false, "String field with non-string input should fail if expected to Pass")
      ∧ (validate_test_case (mkCand tc de (.str "Fail") (.num n)) dt).1 = true)
    ∧ (∀ b : Bool, validate_test_case (mkCand tc de (.str "Pass") (.bool b)) dt
        = (false, "String field with non-string input should fail if expected to Pass")
      ∧ (validate_test_case (mkCand tc de (.str "Fail") (.bool b)) dt).1 = true)
    ∧ (validate_test_case (mkCand tc de (.str "Pass") .null) dt).1 = true
    ∧ (validate_test_case (mkCand tc de (.str "Fail") .null) dt).1 = true := by
  refine ⟨fun n => ⟨?_, ?_⟩, fun b => ⟨?_, ?_⟩, ?_, ?_⟩ <;>
    simp [validate_test_case, mkCand, hdt, validate_string_format]

theorem c5_string_pass_guard_witness :
    validate_test_case (mkCand (.str "T1") (.str "d") (.str "Pass") (.num 42)) "string"
      = (false, "String field with non-string input should fail if expected to Pass") :=
  ((c5_string_pass_guard (.str "T1") (.str "d") "string" (by decide)).1 42).1

/-- C10: the date validator accepts fractional seconds of any length from one
to six digits after "2024-07-29 10:20:30.", and rejects the same timestamp
with no fractional part at all. -/
theorem validate_date_str_of_ok (l : List Char) (h : strptime_ok l = true) :
    (validate_date_format (.str (String.mk l))).1 = true := by
  have hc : (valid_format_checks.any (fun f => f (String.mk l).toList)) = true := by
    show (strptime_ok l || false) = true
    rw [h]
    rfl
  show (if valid_format_checks.any (fun f => f (String.mk l).toList) then ((true, "") : Bool × String)
        else (false, "Invalid date format. Expected formats: [\x27%Y-%m-%d %H:%M:%S.%f\x27]")).1 = true
  rw [if_pos hc]

theorem c10_fraction_lengths (ds : List Char) (hne : ds ≠ []) (hlen : ds.length ≤ 6)
    (hdig : ∀ c ∈ ds, c.isDigit) :
    (validate_date_format (.str (String.mk ("2024-07-29 10:20:30.".toList ++ ds)))).1 = true
    ∧ (validate_date_format (.str "2024-07-29 10:20:30.123")).1 = true
    ∧ (validate_date_format (.str "2024-07-29 10:20:30.123456")).1 = true
    ∧ (validate_date_format (.str "2024-07-29 10:20:30")).1 = false := by
  refine ⟨?_, by decide, by decide, by decide⟩
  exact validate_date_str_of_ok _ (strptime_dot_tail ds hne hlen hdig)

theorem c10_fraction_lengths_witness :
    (validate_date_format (.str (String.mk ("2024-07-29 10:20:30.".toList ++ "99".toList)))).1
      = true :=
  (c10_fraction_lengths "99".toList (by decide) (by decide) (by decide)).1

/-- C9: the tabular flattening yields exactly one row per TestCase, in
mapping order, with the six columns in header order; SchemaName and FieldName
are the parts of the composite key around its first dot (only the first dot
splits), and a null input renders as the literal "NULL" - in particular the
example mapping yields the row Schema1,Field1,T1,d,Pass,NULL. -/
theorem c9_tabular_rows :
    csvRows [("Schema1.Field1",
      [⟨some (.str "T1"), some (.str "d"), some (.str "Pass"), some .null⟩])]
      = [["Schema1", "Field1", "T1", "d", "Pass", "NULL"]]
    ∧ csvHeaders = ["SchemaName", "FieldName", "Test Case", "Description",
        "Expected Result", "Input"]
    ∧ (∀ tcs : List (String × List Candidate),
        csvRows tcs = tcs.bind (fun p => p.2.map (rowForCase p.1.toList)))
    ∧ (∀ tcs : List (String × List Candidate),
        (csvRows tcs).length = (tcs.map (fun p => p.2.length)).sum)
    ∧ (∀ k : List Char, ∀ c : Candidate, (rowForCase k c).length = 6)
    ∧ rowForCase "A.B.C".toList (mkCand (.str "T") (.str "d") (.str "Pass") (.str "x"))
      = ["A", "B.C", "T", "d", "Pass", "x"] := by
  refine ⟨by decide, rfl, ?_, ?_, fun k c => rfl, by decide⟩
  · intro tcs
    induction tcs with
    | nil => rfl
    | cons p rest ih => cases p with
      | mk fn cl => simp [csvRows, List.cons_bind, ih]
  · intro tcs
    induction tcs with
    | nil => rfl
    | cons p rest ih => cases p with
      | mk fn cl => simp [csvRows, ih]

/-- C7 (evaluating the generate_test_cases.py summary at the failing input):
for the singleton mapping the actual counts computed by the source are 1
field and 1 case, yet the emitted summary reports the hardcoded numbers 10,
122 and 12.2 and does not depend on the mapping at all. -/
theorem c7_summary_hardcoded :
    total_fields_gtc [("Schema1.Field1", [mkCand (.str "T1") (.str "d") (.str "Pass") .null])] = 1
    ∧ total_test_cases_gtc
        [("Schema1.Field1", [mkCand (.str "T1") (.str "d") (.str "Pass") .null])] = 1
    ∧ containsSub "Total fields processed: 10 ".toList
        (generate_summary_gtc
          [("Schema1.Field1", [mkCand (.str "T1") (.str "d") (.str "Pass") .null])]
          "output/test.json").toList = true
    ∧ containsSub "Total test cases generated: 122 ".toList
        (generate_summary_gtc
          [("Schema1.Field1", [mkCand (.str "T1") (.str "d") (.str "Pass") .null])]
          "output/test.json").toList = true
    ∧ containsSub "Average test cases per field: 12.2 ".toList
        (generate_summary_gtc
          [("Schema1.Field1", [mkCand (.str "T1") (.str "d") (.str "Pass") .null])]
          "output/test.json").toList = true
    ∧ (∀ tcs tcs' : List (String × List Candidate), ∀ f : String,
        generate_summary_gtc tcs f = generate_summary_gtc tcs' f) := by
  refine ⟨rfl, rfl, by decide, by decide, by decide, fun tcs tcs' f => rfl⟩

/-- C3 (evaluating the prompt builder at the failing input): "datetime64[ns]"
is date-like for the classifier used by the validator, yet its prompt has no
date-format enumeration - `_generate_prompt` only appends it when data_type
is exactly "Date" (the substring check is nested under that equality). -/
theorem c3_prompt_date_enumeration_bug :
    simplified_type "datetime64[ns]" = some "Date"
    ∧ field_specific_info "datetime64[ns]" = ""
    ∧ containsSub "For Date fields, use these formats only".toList
        (generate_prompt "Field2" "datetime64[ns]" false false "Date field").toList = false
    ∧ containsSub "%Y-%m-%d %H:%M:%S.%f".toList
        (generate_prompt "Field2" "datetime64[ns]" false false "Date field").toList = false
    ∧ containsSub "%Y-%m-%d %H:%M:%S.%f".toList
        (generate_prompt "Field2" "Date" false false "Date field").toList = true := by
  refine ⟨by decide, rfl, by decide, by decide, by decide⟩

/-- C8 counterexample: in blob-storage mode a failed JSON (record-format)
upload does not fail the run - the save returns normally with the failure
only logged, and the CSV upload still proceeds. -/
theorem c8_blob_json_failure_ok :
    (save_test_cases_blob false true
      [("Schema1.Field1", [mkCand (.str "T1") (.str "d") (.str "Pass") .null])]).1
      = Except.ok ()
    ∧ (save_test_cases_blob false true
      [("Schema1.Field1", [mkCand (.str "T1") (.str "d") (.str "Pass") .null])]).2
      = ["Failed to save JSON test cases to Azure Blob Storage",
         "Successfully saved test cases to CSV in Azure Blob Storage"] := by
  exact ⟨rfl, by decide⟩

/-- C8 amended: in local mode a JSON write failure is re-raised (the run
fails with that error) while a CSV write failure after a successful JSON
write is only logged and the run completes; in blob mode both uploads are
fire-and-log - the save never fails the run, whatever the outcomes. -/
theorem c8_sink_failure_policy :
    (∀ (e : String) (csvW : Except String Unit) (tcs : List (String × List Candidate)),
        (save_test_cases_local (.error e) csvW tcs).1 = .error e)
    ∧ (∀ (e : String) (tcs : List (String × List Candidate)),
        (save_test_cases_local (.ok ()) (.error e) tcs).1 = .ok ()
        ∧ (tcs ≠ [] →
            "Failed to save test cases to CSV file"
              ∈ (save_test_cases_local (.ok ()) (.error e) tcs).2))
    ∧ (∀ (j c : Bool) (tcs : List (String × List Candidate)),
        (save_test_cases_blob j c tcs).1 = .ok ()) := by
  refine ⟨fun e csvW tcs => rfl, fun e tcs => ⟨?_, ?_⟩, fun j c tcs => rfl⟩
  · by_cases h : tcs = [] <;> simp [save_test_cases_local, h]
  · intro h
    simp [save_test_cases_local, h]

theorem c8_sink_failure_policy_witness :
    "Failed to save test cases to CSV file"
      ∈ (save_test_cases_local (.ok ()) (.error "disk full")
          [("Schema1.Field1", [mkCand (.str "T1") (.str "d") (.str "Pass") .null])]).2 :=
  (c8_sink_failure_policy.2.1 "disk full"
    [("Schema1.Field1", [mkCand (.str "T1") (.str "d") (.str "Pass") .null])]).2 (by decide)

theorem run_attempts_fail (decode : List Char → Option (List Candidate)) (dt : String)
    (l : List (Except Unit (Option (List Char))))
    (h : ∀ o ∈ l, attempt_failed decode dt o) :
    run_field_attempts decode dt l = none := by
  induction l with
  | nil => rfl
  | cons o rest ih =>
    have ho := h o (List.mem_cons_self o rest)
    have hrest := ih (fun o' ho' => h o' (List.mem_cons_of_mem _ ho'))
    cases o with
    | error u => simpa [run_field_attempts] using hrest
    | ok r =>
      cases r with
      | none => simpa [run_field_attempts] using hrest
      | some t =>
        simp only [attempt_failed] at ho
        by_cases htn : t = []
        · simp [run_field_attempts, htn, hrest]
        · rcases ho with ht | hp | hp
          · exact absurd ht htn
          · simp [run_field_attempts, htn, hp, hrest]
          · simp [run_field_attempts, htn, hp, hrest]

/-- C1: if every attempt of every field mapping to a composite key fails
(completion raised, empty/None response, or no valid parsed cases - all
caught inside the retry loop), that key is absent from the final result
mapping; the surrounding run is a total function of the oracle outcomes, so
it completes without raising. -/
theorem c1_retry_exhaustion (decode : List Char → Option (List Candidate))
    (rules : List (String × List (String × FieldSpec)))
    (oracle : String → String → List (Except Unit (Option (List Char))))
    (k : String)
    (hall : ∀ p fs, (p, fs) ∈ rules → ∀ f fd, (f, fd) ∈ fs → composite_key p f = k →
        (oracle p f).length = 3 ∧ ∀ o ∈ oracle p f, attempt_failed decode fd.data_type o) :
    k ∉ (generate_all decode rules oracle).map Prod.fst := by
  intro hk
  obtain ⟨⟨k', cs⟩, hmem, hfst⟩ := List.mem_map.mp hk
  obtain ⟨⟨p, fs⟩, hp, hin⟩ := List.mem_bind.mp hmem
  obtain ⟨⟨f, fd⟩, hf, hmap⟩ := List.mem_filterMap.mp hin
  cases hrun : run_field_attempts decode fd.data_type (oracle p f) with
  | none =>
    rw [hrun] at hmap
    simp at hmap
  | some cs0 =>
    rw [hrun] at hmap
    have h2 := Option.some.inj hmap
    have hkey : composite_key p f = k := by
      have hfst' : k' = k := hfst
      have h3 := congrArg Prod.fst h2
      exact h3.trans hfst'
    have hfail := (hall p fs hp f fd hf hkey).2
    rw [run_attempts_fail decode fd.data_type _ hfail] at hrun
    exact Option.noConfusion hrun

theorem c1_retry_exhaustion_witness :
    "Schema1.Field1" ∉ (generate_all (fun _ => none)
      [("Schema1", [("Field1", ⟨"string", true, false, "Rule1"⟩)])]
      (fun _ _ => [.error (), .error (), .error ()])).map Prod.fst :=
  c1_retry_exhaustion (fun _ => none)
    [("Schema1", [("Field1", ⟨"string", true, false, "Rule1"⟩)])]
    (fun _ _ => [.error (), .error (), .error ()])
    "Schema1.Field1"
    (by
      intro p fs hp f fd hf hk
      simp only [List.mem_singleton, Prod.mk.injEq] at hp
      obtain ⟨rfl, rfl⟩ := hp
      simp only [List.mem_singleton, Prod.mk.injEq] at hf
      obtain ⟨rfl, rfl⟩ := hf
      refine ⟨rfl, ?_⟩
      intro o ho
      rcases List.mem_cons.mp ho with rfl | ho
      · trivial
      rcases List.mem_cons.mp ho with rfl | ho
      · trivial
      rcases List.mem_cons.mp ho with rfl | ho
      · trivial
      simp at ho)

theorem isPre_append (pat : List Char) : ∀ x y : List Char, isPre pat x = true →
    isPre pat (x ++ y) = true := by
  induction pat with
  | nil => intro x y _; simp [isPre]
  | cons p ps ih =>
    intro x y h
    cases x with
    | nil => simp [isPre] at h
    | cons c x' =>
      simp [isPre] at h ⊢
      exact ⟨h.1, ih x' y h.2⟩

theorem isPre_refl (pat : List Char) : isPre pat pat = true := by
  induction pat with
  | nil => rfl
  | cons p ps ih => simp [isPre, ih]

theorem isPre_split (d : Char) (b : List Char) : ∀ (pat x : List Char), d ∉ pat →
    isPre pat (x ++ d :: b) = true → isPre pat x = true ∧ pat.length ≤ x.length := by
  intro pat
  induction pat with
  | nil => intro x _ _; simp [isPre]
  | cons p ps ih =>
    intro x hd h
    cases x with
    | nil =>
      exfalso
      simp [isPre] at h
      apply hd
      rw [← h.1]
      exact List.mem_cons_self _ _
    | cons c x' =>
      simp [isPre] at h ⊢
      have hd' : d ∉ ps := fun hm => hd (List.mem_cons_of_mem _ hm)
      obtain ⟨ih1, ih2⟩ := ih x' hd' h.2
      exact ⟨⟨h.1, ih1⟩, by omega⟩

theorem scanReplace_cons (pat rep : List Char) (c : Char) (l : List Char) :
    scanReplace pat rep (c :: l)
      = if isPre pat (c :: l) then rep ++ scanReplace pat rep (List.drop (pat.length - 1) l)
        else c :: scanReplace pat rep l := by
  rw [scanReplace]

theorem scanReplace_append_aux (pat rep : List Char) (d : Char) (b : List Char) (hd : d ∉ pat) :
    ∀ (n : Nat) (a : List Char), a.length ≤ n →
      scanReplace pat rep (a ++ d :: b) = scanReplace pat rep a ++ scanReplace pat rep (d :: b) := by
  intro n
  induction n with
  | zero =>
    intro a ha
    have : a = [] := List.length_eq_zero.mp (Nat.le_zero.mp ha)
    subst this
    simp [scanReplace]
  | succ n ih =>
    intro a ha
    cases a with
    | nil => simp [scanReplace]
    | cons c a' =>
      by_cases hpre : isPre pat (c :: (a' ++ d :: b)) = true
      · obtain ⟨hpre', hlen⟩ := isPre_split d b pat (c :: a') hd hpre
        have hstep := scanReplace_cons pat rep c (a' ++ d :: b)
        rw [show (c :: a') ++ d :: b = c :: (a' ++ d :: b) from rfl, hstep, if_pos hpre]
        rw [scanReplace_cons pat rep c a', if_pos hpre']
        have hm : pat.length - 1 ≤ a'.length := by
          simp at hlen
          omega
        rw [List.drop_append_eq_append_drop, Nat.sub_eq_zero_of_le hm, List.drop_zero]
        rw [ih (List.drop (pat.length - 1) a')
          (by simp only [List.length_drop]; simp only [List.length_cons] at ha; omega)]
        simp [List.append_assoc]
      · have hpre' : ¬ isPre pat (c :: a') = true := by
          intro hcontra
          apply hpre
          have := isPre_append pat (c :: a') (d :: b) hcontra
          simpa using this
        have hstep := scanReplace_cons pat rep c (a' ++ d :: b)
        rw [show (c :: a') ++ d :: b = c :: (a' ++ d :: b) from rfl, hstep, if_neg hpre]
        rw [scanReplace_cons pat rep c a', if_neg hpre']
        rw [ih a' (by simp at ha; omega)]
        simp

theorem scanReplace_append (pat rep : List Char) (d : Char) (b : List Char) (hd : d ∉ pat)
    (a : List Char) :
    scanReplace pat rep (a ++ d :: b) = scanReplace pat rep a ++ scanReplace pat rep (d :: b) :=
  scanReplace_append_aux pat rep d b hd a.length a le_rfl

theorem pyStrip_cons_nl (l : List Char) : pyStrip ('\n' :: l) = pyStrip l := by
  simp +decide [pyStrip, List.dropWhile_cons]

theorem pyStrip_append_nl (l : List Char) : pyStrip (l ++ ['\n']) = pyStrip l := by
  unfold pyStrip
  rw [List.dropWhile_append]
  by_cases h : (l.dropWhile isPySpace).isEmpty
  · simp only [if_pos h]
    simp only [List.isEmpty_iff] at h
    rw [h]
    decide
  · simp only [if_neg h]
    rw [List.reverse_append]
    simp +decide [List.dropWhile_cons]

theorem scanReplace_no_match (pat rep : List Char) :
    ∀ l : List Char, containsSub pat l = false → scanReplace pat rep l = l := by
  intro l
  induction l with
  | nil => intro _; simp [scanReplace]
  | cons c r ih =>
    intro h
    simp only [containsSub, List.tails, List.any_cons, Bool.or_eq_false_iff] at h
    rw [scanReplace_cons, if_neg (by simp [h.1])]
    rw [ih (by simpa [containsSub] using h.2)]

theorem scanReplace_head_match (pat rest : List Char) (hne : pat ≠ []) :
    scanReplace pat [] (pat ++ rest) = scanReplace pat [] rest := by
  cases pat with
  | nil => exact absurd rfl hne
  | cons c ps =>
    have hp : isPre (c :: ps) (c :: (ps ++ rest)) = true :=
      isPre_append (c :: ps) (c :: ps) rest (isPre_refl _)
    rw [show (c :: ps) ++ rest = c :: (ps ++ rest) from rfl, scanReplace_cons, if_pos hp]
    rw [show (c :: ps).length - 1 = ps.length from by simp]
    rw [List.drop_left]
    rfl

theorem cleanText_fenceWrap (s : List Char) : cleanText (fenceWrap s) = cleanText s := by
  have hd1 : '\n' ∉ "```json".toList := by decide
  have hd2 : '\n' ∉ "```".toList := by decide
  have hn1 : ¬ isPre "```json".toList ('\n' :: (s ++ '\n' :: "```".toList)) = true := by
    rw [show "```json".toList = '`' :: '`' :: '`' :: 'j' :: 's' :: 'o' :: 'n' ::[] from rfl]
    simp +decide [isPre]
  have hn2 : ¬ isPre "```".toList
      ('\n' :: (scanReplace "```json".toList [] s ++ '\n' :: "```".toList)) = true := by
    rw [show "```".toList = '`' :: '`' :: '`' ::[] from rfl]
    simp +decide [isPre]
  have h1 : scanReplace "```json".toList [] (fenceWrap s)
      = '\n' :: (scanReplace "```json".toList [] s ++ '\n' :: "```".toList) := by
    rw [show fenceWrap s
        = "```json".toList ++ ('\n' :: (s ++ '\n' :: "```".toList)) from rfl]
    rw [scanReplace_head_match _ _ (by decide)]
    rw [scanReplace_cons, if_neg hn1]
    rw [scanReplace_append "```json".toList [] '\n' "```".toList hd1 s]
    rw [scanReplace_no_match "```json".toList [] ('\n' :: "```".toList) (by decide)]
  have h2 : scanReplace "```".toList []
        ('\n' :: (scanReplace "```json".toList [] s ++ '\n' :: "```".toList))
      = '\n' :: (scanReplace "```".toList [] (scanReplace "```json".toList [] s) ++ ['\n']) := by
    rw [scanReplace_cons, if_neg hn2]
    rw [scanReplace_append "```".toList [] '\n' "```".toList hd2]
    rw [show scanReplace "```".toList [] ('\n' :: "```".toList) = ['\n'] from by
      rw [scanReplace_cons, if_neg (by decide)]
      nth_rewrite 2 [show ("```".toList : List Char) = "```".toList ++ ([] : List Char) from
        (List.append_nil _).symm]
      rw [scanReplace_head_match "```".toList [] (by decide)]
      simp [scanReplace]]
  unfold cleanText
  rw [h1, h2, pyStrip_cons_nl, pyStrip_append_nl]
/-- C6: (a) a response wrapped in code-fence markers parses to exactly the
same result as the unwrapped response, for every decoder, data type and
response text; (b) the escape repair doubles every backslash not immediately
followed by a double quote or another backslash; (c) whenever the repaired
cleaned text decodes as a JSON array, the parse succeeds (returns a list
rather than the failure value). -/
theorem c6_parser_resilience :
    (∀ (decode : List Char → Option (List Candidate)) (dt : String) (s : List Char),
        parse_llm_response decode dt (fenceWrap s) = parse_llm_response decode dt s)
    ∧ (∀ c : Char, c ≠ '"' → c ≠ '\\' → ∀ rest : List Char,
        repairEscapes ('\\' :: c :: rest) = '\\' :: '\\' :: c :: repairEscapes rest)
    ∧ (∀ (decode : List Char → Option (List Candidate)) (dt : String) (s : List Char)
        (cs : List Candidate), decode (repairEscapes (cleanText s)) = some cs →
        ∃ out, parse_llm_response decode dt s = some out) := by
  refine ⟨?_, ?_, ?_⟩
  · intro decode dt s
    unfold parse_llm_response
    rw [cleanText_fenceWrap]
  · intro c h1 h2 rest
    rw [repairEscapes]
    rw [if_neg (by simp [h1, h2])]
  · intro decode dt s cs hdec
    unfold parse_llm_response
    rw [hdec]
    exact ⟨_, rfl⟩

theorem c6_parser_resilience_witness :
    ∃ out, parse_llm_response (fun _ => some []) "string" "[]".toList = some out :=
  c6_parser_resilience.2.2 (fun _ => some []) "string" "[]".toList [] rfl
